import Mathlib

/-!
Shallow embedding of FreeOrion's checksum core:
  * `CheckSums::CheckSumCombine` from src/util/CheckSums.h - a type-driven
    family of overloads folding values into a `uint32_t` accumulator that is
    reduced modulo `CHECKSUM_MODULUS = 10000000` after every step;
  * `ShipHullManager` from src/universe/ShipHull.h - a lazily resolved
    registry of named ship hulls exposing an aggregate checksum.

Machine integers are modelled as `Nat`/`Int` with explicit reductions:
`uint32_t` arithmetic wraps modulo `2^32 = 4294967296`.
-/

namespace CheckSums

/-- `CheckSums::CHECKSUM_MODULUS` (CheckSums.h line 14). -/
def CHECKSUM_MODULUS : Nat := 10000000

/-- `2^32`: modulus of `uint32_t` arithmetic (`sum` is a `uint32_t`). -/
def UINT32_MOD : Nat := 4294967296

/-- One accumulation step shared by the scalar overloads: `sum += x;`
followed by `sum %= CHECKSUM_MODULUS;`.  `sum` is a `uint32_t`, so the
addition wraps modulo `2^32` before the reduction.  A `static_cast<uint32_t>`
applied to `x` before the addition is absorbed by the wrap
(`(s + x % 2^32) % 2^32 = (s + x) % 2^32`), so callers pass the
mathematical value. -/
def addStep (sum x : Nat) : Nat := ((sum + x) % UINT32_MOD) % CHECKSUM_MODULUS

/-- The categories of values accepted by the `CheckSumCombine` template
overloads defined in src/util/CheckSums.h lines 22-99:
signed integral types (of bit width `width`), unsigned integral types,
classes with a `GetCheckSum` method (represented by the `uint32_t` that
method returns - the combinator never looks inside, CheckSums.h line 43),
enums, pointer-like values (raw/shared/unique pointers, all three overloads
have the same body: combine the pointee iff non-null), pairs, and iterable
containers. -/
inductive Val : Type where
  | i (width : Nat) (t : Int)
  | u (width : Nat) (t : Nat)
  | comp (checksum : Nat)
  | enum (ordinal : Int)
  | ptr (p : Option Val)
  | pair (a b : Val)
  | list (xs : List Val)

mutual

/-- `CheckSums::CheckSumCombine` (CheckSums.h lines 22-99), one equation per
overload:
  * signed (lines 22-28): `sum += static_cast<uint32_t>(std::abs(t)); sum %= CHECKSUM_MODULUS;`
  * unsigned (lines 29-35): `sum += static_cast<uint32_t>(t); sum %= CHECKSUM_MODULUS;`
  * class with `GetCheckSum` (lines 37-45): `sum += c.GetCheckSum(); sum %= CHECKSUM_MODULUS;`
  * enum (lines 47-54): `CheckSumCombine(sum, static_cast<int>(t) + 10);` -
    delegates to the signed overload, contributing `|ordinal + 10|`
  * pointers (lines 56-77): `if (p) CheckSumCombine(sum, *p);`
  * pair (lines 79-86): combine `p.first`, then `p.second`
  * container (lines 88-99): combine each element in iteration order, then
    `sum += c.size(); sum %= CHECKSUM_MODULUS;`. -/
def checkSumCombine : Nat → Val → Nat
  | sum, .i _ t => addStep sum t.natAbs
  | sum, .u _ t => addStep sum t
  | sum, .comp c => addStep sum c
  | sum, .enum o => addStep sum (o + 10).natAbs
  | sum, .ptr none => sum
  | sum, .ptr (some v) => checkSumCombine sum v
  | sum, .pair a b => checkSumCombine (checkSumCombine sum a) b
  | sum, .list xs => addStep (checkSumList sum xs) xs.length

/-- The `for (const auto& t : c) CheckSumCombine(sum, t);` loop of the
container overload (CheckSums.h lines 95-96). -/
def checkSumList : Nat → List Val → Nat
  | sum, [] => sum
  | sum, v :: vs => checkSumList (checkSumCombine sum v) vs

end

/-- The loop of the container overload is a left fold of the combinator. -/
theorem checkSumList_eq_foldl (xs : List Val) :
    ∀ sum : Nat, checkSumList sum xs = xs.foldl checkSumCombine sum := by
  induction xs with
  | nil => intro sum; rfl
  | cons v vs ih => intro sum; simp [checkSumList, List.foldl, ih]

/-- Every scalar accumulation step ends below the modulus. -/
theorem addStep_lt (s x : Nat) : addStep s x < CHECKSUM_MODULUS :=
  Nat.mod_lt _ (by decide)

/-- `std::abs(t)` applied to a signed integral value `t` of bit width `width`
has undefined behaviour exactly when the (promoted) operand type cannot
represent the result: for types of rank at least `int` (width ≥ 32) this
happens at the type's minimum `-2^(width-1)`; narrower types are promoted to
`int` first, so their minimum is representable and `std::abs` is defined. -/
def absUndefined (width : Nat) (t : Int) : Prop :=
  32 ≤ width ∧ t = -(2 : Int) ^ (width - 1)

instance (w : Nat) (t : Int) : Decidable (absUndefined w t) := by
  unfold absUndefined; infer_instance

end CheckSums

namespace ShipHullRegistry

open CheckSums

/-- A `(key, value)` entry of `ShipHullManager::container_type`
(`std::map<std::string, std::unique_ptr<ShipHull>, std::less<>>`,
ShipHull.h line 195): the key is the hull name (a string, modelled as its
character code points) and the value a non-null owning pointer to a
`ShipHull`, which the combinator only ever consults through its
`GetCheckSum()` accessor (ShipHull.h line 151), so the hull itself is
represented by that `uint32_t`. -/
structure HullEntry : Type where
  name : List Nat
  checksum : Nat

/-- Modelled from the spec: the `std::string` overload of `CheckSumCombine`
is declared in CheckSums.h line 19 but defined in util/CheckSums.cpp, which
is not among the sources.  Spec §4.1: "Text: contributes a sum derived from
the sequence of character code points (order-sensitive), reduced modulo
MODULUS" — each code point is folded with the usual accumulation step. -/
def csText (sum : Nat) (cps : List Nat) : Nat := cps.foldl addStep sum

/-- The contribution of one registry entry: the pair overload combines the
key (string path) and then the value (`unique_ptr`, non-null, pointing to a
hull with `GetCheckSum`). -/
def entryCombine (sum : Nat) (e : HullEntry) : Nat :=
  checkSumCombine (csText sum e.name) (Val.ptr (some (Val.comp e.checksum)))

/-- State of `ShipHullManager` (ShipHull.h lines 226-231): the optional
pending future `m_pending_ship_hulls` (modelled by the keyed collection it
will yield, in its iteration order) and the resolved map `m_hulls` (entries
in ascending key order, the map's iteration order). -/
structure ShipHullManagerState : Type where
  pending : Option (List HullEntry)
  hulls : List HullEntry

/-- Modelled from the spec: `ShipHullManager::SetShipHulls` is declared in
ShipHull.h line 224 with its body in universe/ShipHull.cpp, absent from the
sources.  Spec §4.2: `SetContent(pendingFuture)` attaches the future,
replacing any previously attached one. -/
def setShipHulls (p : List HullEntry) (s : ShipHullManagerState) :
    ShipHullManagerState :=
  { s with pending := some p }

/-- Modelled from the spec: `ShipHullManager::CheckPendingShipHulls`
(declared ShipHull.h line 229, body in universe/ShipHull.cpp, absent).
Spec §4.2: a query first checks for an attached pending future; if present
it resolves it, the resolved collection fully replaces the registry's
content and the pending marker is discarded; otherwise nothing changes. -/
def checkPendingShipHulls (s : ShipHullManagerState) : ShipHullManagerState :=
  match s.pending with
  | none => s
  | some c => { pending := none, hulls := c }

/-- The element loop of the container overload of `CheckSumCombine`
(CheckSums.h lines 95-96) specialised to registry entries. -/
def csHullEntryList : Nat → List HullEntry → Nat
  | sum, [] => sum
  | sum, e :: es => csHullEntryList (entryCombine sum e) es

/-- The container overload of `CheckSumCombine` (CheckSums.h lines 88-99)
applied to the registry's map: fold each `(name, hull)` entry in iteration
order, then `sum += c.size(); sum %= CHECKSUM_MODULUS;`. -/
def csHullContainer (sum : Nat) (hs : List HullEntry) : Nat :=
  addStep (csHullEntryList sum hs) hs.length

/-- Modelled from the spec: `ShipHullManager::GetCheckSum` (declared
ShipHull.h line 219, body in universe/ShipHull.cpp, absent).  Spec §4.2:
"resolves pending state first; folds every record across the iteration
order above, then folds in the entry count — mirrors the collection-category
rule of §4.1 applied to the whole registry": it applies the container
overload of `CheckSumCombine` to the resolved map, starting from 0. -/
def shipHullManagerGetCheckSum (s : ShipHullManagerState) : Nat :=
  csHullContainer 0 (checkPendingShipHulls s).hulls

/-- Modelled from the spec: `ShipHullManager::GetShipHull` (declared
ShipHull.h line 199, body absent).  Spec §4.2: "resolves pending state
first; returns a non-owning reference; absent signals no such record".
Returns the looked-up entry together with the registry state after the
query (the query mutates the `mutable` members by resolving). -/
def getShipHull (n : List Nat) (s : ShipHullManagerState) :
    Option HullEntry × ShipHullManagerState :=
  let t := checkPendingShipHulls s
  (t.hulls.find? (fun e => e.name == n), t)

/-- Modelled from the spec: `ShipHullManager::size` (declared ShipHull.h
line 208, body absent).  Spec §4.2: resolves pending state first, then
returns the entry count. -/
def sizeShipHulls (s : ShipHullManagerState) : Nat × ShipHullManagerState :=
  let t := checkPendingShipHulls s
  (t.hulls.length, t)

/-- The entry loop is a left fold of the per-entry combinator. -/
theorem csHullEntryList_eq_foldl (hs : List HullEntry) :
    ∀ sum : Nat, csHullEntryList sum hs = hs.foldl entryCombine sum := by
  induction hs with
  | nil => intro sum; rfl
  | cons e es ih => intro sum; simp [csHullEntryList, List.foldl, ih]

end ShipHullRegistry

open CheckSums ShipHullRegistry

/-- C1: for every accumulator `sum` in `[0, CHECKSUM_MODULUS)` and every
value of a supported category (signed, unsigned, enum, composite with
`GetCheckSum`, pointer, pair, iterable container), `CheckSumCombine` leaves
the accumulator in `[0, CHECKSUM_MODULUS)`: every combination step either
ends with the reduction modulo `CHECKSUM_MODULUS` or (null pointer) leaves
the accumulator untouched. -/
theorem checkSumCombine_lt_modulus :
    ∀ (v : Val) (sum : Nat), sum < CHECKSUM_MODULUS →
      checkSumCombine sum v < CHECKSUM_MODULUS
  | .i _ _, _, _ => addStep_lt _ _
  | .u _ _, _, _ => addStep_lt _ _
  | .comp _, _, _ => addStep_lt _ _
  | .enum _, _, _ => addStep_lt _ _
  | .ptr none, _, h => h
  | .ptr (some v), sum, h => checkSumCombine_lt_modulus v sum h
  | .pair a b, sum, h =>
      checkSumCombine_lt_modulus b _ (checkSumCombine_lt_modulus a sum h)
  | .list _, _, _ => addStep_lt _ _

/-- Witness for C1 at `sum = 0`, `v = .u 32 5`. -/
theorem checkSumCombine_lt_modulus_witness :
    checkSumCombine 0 (Val.u 32 5) < CHECKSUM_MODULUS :=
  checkSumCombine_lt_modulus (Val.u 32 5) 0 (by decide)

/-- C2: the container overload folds `CheckSumCombine` over the elements in
iteration order starting from `sum`, then adds the element count and reduces
(with `uint32_t` wrap-around); and it performs no canonicalization: there
are two permutations of the same elements with different checksums. -/
theorem checkSumCombine_container_fold :
    (∀ (sum : Nat) (xs : List Val),
      checkSumCombine sum (.list xs) =
        ((xs.foldl checkSumCombine sum + xs.length) % UINT32_MOD) %
          CHECKSUM_MODULUS)
    ∧ ∃ xs ys : List Val, List.Perm xs ys ∧
        checkSumCombine 0 (.list xs) ≠ checkSumCombine 0 (.list ys) := by
  constructor
  · intro sum xs
    simp [checkSumCombine, addStep, checkSumList_eq_foldl]
  · refine ⟨[.u 32 4294967295, .u 32 9999999],
      [.u 32 9999999, .u 32 4294967295], List.Perm.swap _ _ _, ?_⟩
    decide

/-- C3 as stated is false: the unsigned overload first truncates with
`static_cast<uint32_t>`, so a 64-bit value `u = 2^32` contributes
`0`, not `u mod CHECKSUM_MODULUS = 4967296`. -/
theorem checkSumCombine_unsigned_counterexample :
    checkSumCombine 0 (Val.u 64 4294967296) ≠ 4294967296 % CHECKSUM_MODULUS := by
  decide

/-- C3 (amended): for every unsigned integral value `u`,
`Combine(0, u) = (u mod 2^32) mod CHECKSUM_MODULUS`; in particular for
`u < 2^32` (every value of a 32-bit-or-narrower unsigned type) it equals
`u mod CHECKSUM_MODULUS`. -/
theorem checkSumCombine_unsigned_amended :
    ∀ (w t : Nat),
      checkSumCombine 0 (.u w t) = (t % UINT32_MOD) % CHECKSUM_MODULUS
      ∧ (t < UINT32_MOD →
          checkSumCombine 0 (.u w t) = t % CHECKSUM_MODULUS) := by
  intro w t
  constructor
  · simp [checkSumCombine, addStep]
  · intro h
    simp [checkSumCombine, addStep, Nat.mod_eq_of_lt h]

/-- Witness for C3 (amended) at `w = 32`, `t = 12345678`. -/
theorem checkSumCombine_unsigned_amended_witness :
    checkSumCombine 0 (Val.u 32 12345678) = 12345678 % CHECKSUM_MODULUS :=
  (checkSumCombine_unsigned_amended 32 12345678).2 (by decide)

/-- C4: for every representable signed value `t` of width `w` whose
negation is also representable, combining `t` and combining `-t` from the
same accumulator agree, and the contribution is `|t|`. -/
theorem checkSumCombine_signed_neg :
    ∀ (w : Nat) (t : Int) (sum : Nat),
      -(2 : Int) ^ (w - 1) < t → t < (2 : Int) ^ (w - 1) →
      checkSumCombine sum (.i w t) = checkSumCombine sum (.i w (-t))
      ∧ checkSumCombine sum (.i w t) = addStep sum t.natAbs := by
  intro w t sum h1 h2
  exact ⟨by simp [checkSumCombine, Int.natAbs_neg], rfl⟩

/-- Witness for C4 at `w = 32`, `t = -7`, `sum = 0`. -/
theorem checkSumCombine_signed_neg_witness :
    checkSumCombine 0 (Val.i 32 (-7)) = checkSumCombine 0 (Val.i 32 (-(-7)))
    ∧ checkSumCombine 0 (Val.i 32 (-7)) = addStep 0 (Int.natAbs (-7)) :=
  checkSumCombine_signed_neg 32 (-7) 0 (by decide) (by decide)

/-- C5: the enum overload delegates to the integer path at
`ordinal + 10`: `Combine(sum, e) = Combine(sum, ordinal(e) + 10)` for every
accumulator, in particular at `sum = 0`. -/
theorem checkSumCombine_enum_eq_int :
    ∀ (sum : Nat) (o : Int),
      checkSumCombine sum (.enum o) = checkSumCombine sum (.i 32 (o + 10))
      ∧ checkSumCombine 0 (.enum o) = checkSumCombine 0 (.i 32 (o + 10)) :=
  fun _ _ => ⟨rfl, rfl⟩

/-- C6: a null pointer leaves the accumulator unchanged (no error outcome:
the combinator is a total function), and a non-null pointer contributes
exactly the combinator's result for the pointee; the raw-, shared- and
unique-pointer overloads (CheckSums.h lines 57-77) all have this body. -/
theorem checkSumCombine_ptr_absent_noop :
    ∀ (sum : Nat) (v : Val),
      checkSumCombine sum (.ptr none) = sum
      ∧ checkSumCombine sum (.ptr (some v)) = checkSumCombine sum v :=
  fun _ _ => ⟨rfl, rfl⟩

/-- C7: the pair overload combines the first component and then the second
into the intermediate accumulator, and it is order-sensitive: for some
`k, v` the checksum of `(k, v)` differs from that of `(v, k)`. -/
theorem checkSumCombine_pair_fold :
    (∀ (sum : Nat) (k v : Val),
      checkSumCombine sum (.pair k v) =
        checkSumCombine (checkSumCombine sum k) v)
    ∧ ∃ k v : Val,
        checkSumCombine 0 (.pair k v) ≠ checkSumCombine 0 (.pair v k) :=
  ⟨fun _ _ _ => rfl, ⟨.u 32 9999999, .u 32 4294967295, by decide⟩⟩

/-- C8: `ShipHullManager::GetCheckSum` resolves pending content, folds every
`(name, hull)` entry in the map's iteration order starting from 0, then
adds the entry count and reduces — the container rule applied to the whole
registry; the result is a `uint32_t`, and it depends only on the stored
content: equal resolved collections give equal checksums. -/
theorem shipHullManager_getCheckSum_spec :
    ∀ s : ShipHullManagerState,
      shipHullManagerGetCheckSum s =
        (((checkPendingShipHulls s).hulls.foldl entryCombine 0 +
          (checkPendingShipHulls s).hulls.length) % UINT32_MOD) %
          CHECKSUM_MODULUS
      ∧ shipHullManagerGetCheckSum s < UINT32_MOD
      ∧ ∀ s2 : ShipHullManagerState,
          (checkPendingShipHulls s).hulls = (checkPendingShipHulls s2).hulls →
          shipHullManagerGetCheckSum s = shipHullManagerGetCheckSum s2 := by
  intro s
  refine ⟨?_, ?_, ?_⟩
  · simp [shipHullManagerGetCheckSum, csHullContainer, addStep,
      csHullEntryList_eq_foldl]
  · exact lt_trans (addStep_lt _ _) (by decide)
  · intro s2 h
    simp only [shipHullManagerGetCheckSum, h]

/-- Witness for C8 at two concrete states holding the same single entry. -/
theorem shipHullManager_getCheckSum_spec_witness :
    shipHullManagerGetCheckSum ⟨some [⟨[65], 42⟩], []⟩ =
      shipHullManagerGetCheckSum ⟨none, [⟨[65], 42⟩]⟩ :=
  (shipHullManager_getCheckSum_spec ⟨some [⟨[65], 42⟩], []⟩).2.2
    ⟨none, [⟨[65], 42⟩]⟩ rfl

/-- C9: after one `SetShipHulls` call, the first query resolves the pending
collection into the hull map and discards the pending marker; a second
query (lookup, size, resolution, aggregate checksum) returns the same
collection and leaves the state unchanged. -/
theorem shipHullManager_resolution_idempotent :
    ∀ (p : List HullEntry) (s : ShipHullManagerState) (n : List Nat),
      ((getShipHull n (setShipHulls p s)).2.hulls = p
      ∧ (getShipHull n (setShipHulls p s)).2.pending = none)
      ∧ getShipHull n (getShipHull n (setShipHulls p s)).2 =
          getShipHull n (setShipHulls p s)
      ∧ sizeShipHulls (sizeShipHulls (setShipHulls p s)).2 =
          sizeShipHulls (setShipHulls p s)
      ∧ checkPendingShipHulls (getShipHull n (setShipHulls p s)).2 =
          (getShipHull n (setShipHulls p s)).2
      ∧ shipHullManagerGetCheckSum (getShipHull n (setShipHulls p s)).2 =
          shipHullManagerGetCheckSum (setShipHulls p s) :=
  fun _ _ _ => ⟨⟨rfl, rfl⟩, rfl, rfl, rfl, rfl⟩

/-- C10 as stated is false for signed types narrower than `int`: for
`int16_t` the minimum value is `-32768 = -2^15`, yet `std::abs` operates on
the value promoted to `int`, so the result 32768 is representable, the step
is well defined and contributes 32768. -/
theorem signed_min_promotion_counterexample :
    ¬ absUndefined 16 (-32768)
    ∧ checkSumCombine 0 (Val.i 16 (-32768)) = 32768
    ∧ (-32768 : Int) = -(2 : Int) ^ (16 - 1) := by
  decide

/-- C10 (amended): for every signed value `t` strictly above the type's
minimum the step is well defined and adds exactly `|t|` converted to
`uint32_t`, then reduces modulo `CHECKSUM_MODULUS`; at the minimum itself
`std::abs` overflows exactly for types at least as wide as `int`
(width ≥ 32) — narrower types are promoted to `int` and stay defined. -/
theorem signed_combine_defined :
    ∀ (w : Nat) (t : Int) (sum : Nat),
      (-(2 : Int) ^ (w - 1) < t →
        ¬ absUndefined w t
        ∧ checkSumCombine sum (.i w t) =
            ((sum + t.natAbs % UINT32_MOD) % UINT32_MOD) % CHECKSUM_MODULUS)
      ∧ (32 ≤ w → absUndefined w (-(2 : Int) ^ (w - 1))) := by
  intro w t sum
  constructor
  · intro h
    constructor
    · rintro ⟨-, rfl⟩
      exact lt_irrefl _ h
    · simp [checkSumCombine, addStep, UINT32_MOD, CHECKSUM_MODULUS]
  · intro hw
    exact ⟨hw, rfl⟩

/-- Witness for C10 (amended) at `w = 32`, `t = 5`, `sum = 0`. -/
theorem signed_combine_defined_witness :
    (¬ absUndefined 32 5
    ∧ checkSumCombine 0 (Val.i 32 5) =
        ((0 + (5 : Int).natAbs % UINT32_MOD) % UINT32_MOD) % CHECKSUM_MODULUS)
    ∧ absUndefined 32 (-(2 : Int) ^ (32 - 1)) :=
  ⟨(signed_combine_defined 32 5 0).1 (by decide),
   (signed_combine_defined 32 5 0).2 (by decide)⟩
